import Mathlib

/-!
Verification of the multi-sig wallet repository: the Express backend
(`/proposals`, `/propose`, `/sign` handlers and their `multisigData` store),
the client-side `getSortedSigList` helper of the transaction item component,
and the pool page's `lastExecutedNonce` / `outdated` computation.

JSON body fields are modelled as `Option String` (absent = `none`); the
JavaScript falsiness test `!x` on such a field holds exactly for an absent
field or the empty string.  `chainId` and `nonce` arrive as JSON numbers in
practice; `chainId` is only ever stringified into the storage key and is
modelled by its string form, while `nonce` is kept as an `Int`.
-/

namespace MultiSig

/-- JavaScript `String.prototype.toLowerCase`, restricted to the ASCII
identifiers (hex addresses) this code base manipulates. -/
def jsToLowerCase (s : String) : String := String.mk (s.data.map Char.toLower)

/-- Falsiness (`!x`) of an optional string request field: absent or empty. -/
def falsyStr : Option String → Bool
  | none => true
  | some s => s == ""

/-- One collected approval as stored by the backend: the claimed signer
address and the raw signature string, exactly as submitted. -/
structure SignatureInfo where
  signer : String
  signature : String
deriving DecidableEq, Repr

/-- A pending transaction proposal as stored by the backend
(`TransactionProposal` in the source). -/
structure TransactionProposal where
  hash : String
  «to» : String
  value : String
  data : String
  nonce : Int
  proposer : Option String
  signatures : List SignatureInfo
deriving DecidableEq, Repr

/-- Read a property of a JavaScript object, modelled as an association list
with unique keys (first binding wins, as our writes keep keys unique). -/
def objGet {α : Type} : List (String × α) → String → Option α
  | [], _ => none
  | (k', v) :: rest, k => if k' = k then some v else objGet rest k

/-- Write a property of a JavaScript object: replace in place if the key is
present, append otherwise. -/
def objSet {α : Type} : List (String × α) → String → α → List (String × α)
  | [], k, v => [(k, v)]
  | (k', v') :: rest, k, v =>
    if k' = k then (k, v) :: rest else (k', v') :: objSet rest k v

/-- The inner map of `multisigData`: transaction hash to proposal. -/
abbrev ProposalMap := List (String × TransactionProposal)

/-- The backend's entire mutable state `multisigData`: a mapping from the
key `address ++ "_" ++ chainId` to a map from transaction hash to proposal. -/
abbrev Store := List (String × ProposalMap)

/-- Two-level lookup: the proposal stored under key `k` and hash `h`. -/
def lookup2 (st : Store) (k h : String) : Option TransactionProposal :=
  (objGet st k).bind (fun inner => objGet inner h)

/-- `if (!multisigData[key]) multisigData[key] = ...` — initialize the inner
map to empty when the key is absent (an empty object is truthy in JS, so the
test only fires on an absent key). -/
def ensureKey (st : Store) (key : String) : Store :=
  match objGet st key with
  | none => objSet st key []
  | some _ => st

/-- Body of a `POST /propose` request. -/
structure ProposeRequest where
  address : Option String
  chainId : Option String
  hash : Option String
  «to» : Option String
  value : Option String
  data : Option String
  nonce : Option Int
  proposer : Option String
deriving DecidableEq, Repr

/-- Outcome of the `/propose` handler, mirroring the three `res.status`
responses of the source. -/
inductive ProposeResult where
  | badRequest (error : String)
  | conflict (message : String) (proposal : TransactionProposal)
  | created (proposal : TransactionProposal)
deriving DecidableEq, Repr

/-- HTTP status code attached to each `/propose` outcome in the source. -/
def proposeStatus : ProposeResult → Nat
  | .badRequest _ => 400
  | .conflict _ _ => 409
  | .created _ => 201

/-- The validation test of `/propose`: `!address || !chainId || !hash ||
!to || value === undefined || data === undefined || nonce === undefined`. -/
def proposeInvalid (r : ProposeRequest) : Bool :=
  falsyStr r.address || falsyStr r.chainId || falsyStr r.hash || falsyStr r.«to» ||
    r.value.isNone || r.data.isNone || r.nonce.isNone

/-- The storage key of a propose request: ``` `${address}_${chainId}` ```. -/
def proposeKey (r : ProposeRequest) : String :=
  r.address.getD "" ++ "_" ++ r.chainId.getD ""

/-- The fresh proposal object built by `/propose`: submitted fields copied
verbatim (`value` passed through `String(value)`, identity on our model) and
an empty signature list. -/
def mkProposal (r : ProposeRequest) (h : String) : TransactionProposal :=
  { hash := h, «to» := r.«to».getD "", value := r.value.getD "",
    data := r.data.getD "", nonce := r.nonce.getD 0,
    proposer := r.proposer, signatures := [] }

/-- The `POST /propose` handler. -/
def handlePropose (st : Store) (r : ProposeRequest) : ProposeResult × Store :=
  if proposeInvalid r then
    (.badRequest "Missing required fields for proposal.", st)
  else
    let key := proposeKey r
    let hsh := r.hash.getD ""
    let st1 := ensureKey st key
    let inner := (objGet st1 key).getD []
    match objGet inner hsh with
    | some existing =>
      (.conflict "Proposal with this hash already exists." existing, st1)
    | none =>
      let p := mkProposal r hsh
      (.created p, objSet st1 key (objSet inner hsh p))

/-- Body of a `POST /sign` request. -/
structure SignRequest where
  address : Option String
  chainId : Option String
  hash : Option String
  signer : Option String
  signature : Option String
deriving DecidableEq, Repr

/-- Outcome of the `/sign` handler, mirroring the four `res.status`
responses of the source. -/
inductive SignResult where
  | badRequest (error : String)
  | notFound (error : String)
  | conflict (message : String) (proposal : TransactionProposal)
  | ok (proposal : TransactionProposal)
deriving DecidableEq, Repr

/-- HTTP status code attached to each `/sign` outcome in the source. -/
def signStatus : SignResult → Nat
  | .badRequest _ => 400
  | .notFound _ => 404
  | .conflict _ _ => 409
  | .ok _ => 200

/-- The validation test of `/sign`:
`!address || !chainId || !hash || !signer || !signature`. -/
def signInvalid (r : SignRequest) : Bool :=
  falsyStr r.address || falsyStr r.chainId || falsyStr r.hash ||
    falsyStr r.signer || falsyStr r.signature

/-- The storage key of a sign request: ``` `${address}_${chainId}` ```. -/
def signKey (r : SignRequest) : String :=
  r.address.getD "" ++ "_" ++ r.chainId.getD ""

/-- The duplicate-signer test of `/sign`:
`sigInfo.signer.toLowerCase() === signer.toLowerCase()`. -/
def sameSigner (a b : String) : Bool := jsToLowerCase a == jsToLowerCase b

/-- The proposal after `proposal.signatures.push(newSignatureInfo)`. -/
def pushSignature (p : TransactionProposal) (signer sigStr : String) :
    TransactionProposal :=
  { p with signatures := p.signatures ++ [⟨signer, sigStr⟩] }

/-- The `POST /sign` handler. -/
def handleSign (st : Store) (r : SignRequest) : SignResult × Store :=
  if signInvalid r then
    (.badRequest "Missing required fields for signing.", st)
  else
    let key := signKey r
    match objGet st key with
    | none => (.notFound "Multisig contract not found in backend storage.", st)
    | some inner =>
      match objGet inner (r.hash.getD "") with
      | none => (.notFound "Proposal with the given hash not found.", st)
      | some proposal =>
        match proposal.signatures.find?
            (fun si => sameSigner si.signer (r.signer.getD "")) with
        | some _ =>
          (.conflict "Signer has already signed this proposal." proposal, st)
        | none =>
          let p2 := pushSignature proposal (r.signer.getD "") (r.signature.getD "")
          (.ok p2, objSet st key (objSet inner (r.hash.getD "") p2))

/-- The `GET /proposals/:address/:chainId` handler: always responds 200 with
`multisigData[key] || ...` (the stored inner map, or empty), and performs no
write — the returned store is the input store. -/
def handleList (st : Store) (address chainId : String) :
    (Nat × ProposalMap) × Store :=
  ((200, (objGet st (address ++ "_" ++ chainId)).getD []), st)

/-- A request hitting one of the two mutating endpoints. -/
inductive Event where
  | propose (r : ProposeRequest)
  | sign (r : SignRequest)

/-- The state transition performed by one request. -/
def step (st : Store) : Event → Store
  | .propose r => (handlePropose st r).2
  | .sign r => (handleSign st r).2

/-- The coordinator state reached from the initial empty `multisigData`
after a sequence of requests. -/
def run (evs : List Event) : Store := evs.foldl step []

/-- At most one approval per claimed identity, compared case-insensitively. -/
def identOk (sigs : List SignatureInfo) : Prop :=
  sigs.Pairwise (fun a b => jsToLowerCase a.signer ≠ jsToLowerCase b.signer)

/-- Every stored proposal satisfies `identOk`. -/
def storeInv (st : Store) : Prop :=
  ∀ k h p, lookup2 st k h = some p → identOk p.signatures

/-- One entry of the client's intermediate `sigList`: a raw signature
together with the signer identity `recover` returned for it, as a numeric
value (the code sorts by `BigInt(signer)`). -/
structure SigPair where
  signature : String
  signer : Nat
deriving DecidableEq, Repr

/-- The sort order of `sigList.sort((a, b) => BigInt(a.signer) >
BigInt(b.signer) ? 1 : -1)`: `a` is placed before `b` exactly when its
recovered signer is not greater.  Ties (equal recovered signers) are
modelled with the stable order; every property proved below is insensitive
to the order chosen among ties. -/
def sigLe (a b : SigPair) : Prop := a.signer ≤ b.signer

instance : DecidableRel sigLe := fun a b => Nat.decLe a.signer b.signer

instance : IsTotal SigPair sigLe := ⟨fun a b => Nat.le_total a.signer b.signer⟩

instance : IsTrans SigPair sigLe := ⟨fun _ _ _ => Nat.le_trans⟩

/-- The final dedup loop of `getSortedSigList`: walk the sorted list and
keep a pair only when its raw `signature` string is not in `usedSignatures`
yet (the dedup key is the signature bytes, not the recovered signer). -/
def dedupLoop (used : List String) : List SigPair → List SigPair
  | [] => []
  | p :: rest =>
    if p.signature ∈ used then dedupLoop used rest
    else p :: dedupLoop (p.signature :: used) rest

/-- The client's `getSortedSigList`, parameterized by the contract's
`recover` read (signature bytes to recovered signer identity; the hash is
fixed for one call).  The stored claimed `signer` field of the input is
ignored: only `sigInfo.signature` is read. -/
def getSortedSigList (recover : String → Nat) (allSigs : List SignatureInfo) :
    List String :=
  let sigList := allSigs.map (fun si => SigPair.mk si.signature (recover si.signature))
  let sorted := List.insertionSort sigLe sigList
  (dedupLoop [] sorted).map SigPair.signature

/-- The recovered signer identities of a candidate signature list. -/
def recoveredIdentities (recover : String → Nat) (sigs : List String) : List Nat :=
  sigs.map recover

/-- `event.args.nonce ? BigInt(event.args.nonce) : -1n` — the nonce an
ExecuteTransaction event contributes to the running maximum: `-1` when the
nonce is absent or `0` (a bigint `0n` is falsy). -/
def eventNonceVal : Option Int → Int
  | none => -1
  | some n => if n = 0 then -1 else n

/-- The pool page's `lastExecutedNonce`: `-1` for an empty event history,
otherwise the reduce with initial accumulator `-1n` keeping the larger of
the accumulator and each event's contributed nonce. -/
def lastExecutedNonce (events : List (Option Int)) : Int :=
  match events with
  | [] => -1
  | _ =>
    events.foldl
      (fun maxNonce e =>
        if eventNonceVal e > maxNonce then eventNonceVal e else maxNonce)
      (-1)

/-- The pool page's staleness flag:
`lastExecutedNonce >= 0n && tx.nonce <= lastExecutedNonce`. -/
def outdatedFlag (events : List (Option Int)) (txNonce : Int) : Bool :=
  decide (lastExecutedNonce events ≥ 0) && decide (txNonce ≤ lastExecutedNonce events)

/-- Modelled from the spec: claim C7's staleness criterion — at least one
execution event exists and the transaction's embedded nonce is at most the
maximum nonce among all executed events.  Stated over the events' actual
nonces to compare with the code's `outdatedFlag`. -/
def claimOutdated (executedNonces : List Int) (txNonce : Int) : Prop :=
  executedNonces ≠ [] ∧
    ∃ m ∈ executedNonces, (∀ x ∈ executedNonces, x ≤ m) ∧ txNonce ≤ m

/-! ### Association-list lemmas -/

theorem objGet_objSet_self {α : Type} (o : List (String × α)) (k : String) (v : α) :
    objGet (objSet o k v) k = some v := by
  induction o with
  | nil => simp [objSet, objGet]
  | cons hd tl ih =>
    obtain ⟨k', v'⟩ := hd
    by_cases hk : k' = k
    · simp [objSet, objGet, hk]
    · simp [objSet, objGet, hk, ih]

theorem objGet_objSet_ne {α : Type} (o : List (String × α)) (k k' : String) (v : α)
    (hne : k' ≠ k) : objGet (objSet o k v) k' = objGet o k' := by
  have hkk : ¬ k = k' := fun h => hne h.symm
  induction o with
  | nil => simp [objSet, objGet, hkk]
  | cons hd tl ih =>
    obtain ⟨k₀, v₀⟩ := hd
    by_cases hk : k₀ = k
    · subst hk
      simp [objSet, objGet, hkk]
    · simp [objSet, objGet, hk, ih]

theorem objGet_ensureKey_self (st : Store) (k : String) :
    objGet (ensureKey st k) k = some ((objGet st k).getD []) := by
  unfold ensureKey
  cases h : objGet st k with
  | none => simp [objGet_objSet_self]
  | some inner => simp [h]

theorem objGet_ensureKey_ne (st : Store) (k k' : String) (hne : k' ≠ k) :
    objGet (ensureKey st k) k' = objGet st k' := by
  unfold ensureKey
  cases h : objGet st k with
  | none => simp [objGet_objSet_ne _ _ _ _ hne]
  | some inner => rfl

theorem ensureKey_of_some (st : Store) (k : String) (inner : ProposalMap)
    (h : objGet st k = some inner) : ensureKey st k = st := by
  unfold ensureKey
  simp [h]

/-! ### Characterization of the `/propose` handler -/

theorem handlePropose_invalid (st : Store) (r : ProposeRequest)
    (h : proposeInvalid r = true) :
    handlePropose st r = (.badRequest "Missing required fields for proposal.", st) := by
  simp [handlePropose, h]

theorem handlePropose_conflict (st : Store) (r : ProposeRequest)
    (ex : TransactionProposal) (hv : proposeInvalid r = false)
    (hhit : lookup2 st (proposeKey r) (r.hash.getD "") = some ex) :
    handlePropose st r =
      (.conflict "Proposal with this hash already exists." ex, st) := by
  obtain ⟨inner, hin, hex⟩ : ∃ inner, objGet st (proposeKey r) = some inner ∧
      objGet inner (r.hash.getD "") = some ex := by
    unfold lookup2 at hhit
    cases h : objGet st (proposeKey r) with
    | none => simp [h] at hhit
    | some inner => exact ⟨inner, rfl, by simpa [h] using hhit⟩
  simp [handlePropose, hv, ensureKey_of_some st _ _ hin, hin, hex]

theorem handlePropose_created (st : Store) (r : ProposeRequest)
    (hv : proposeInvalid r = false)
    (hmiss : lookup2 st (proposeKey r) (r.hash.getD "") = none) :
    handlePropose st r =
      (.created (mkProposal r (r.hash.getD "")),
        objSet (ensureKey st (proposeKey r)) (proposeKey r)
          (objSet ((objGet st (proposeKey r)).getD []) (r.hash.getD "")
            (mkProposal r (r.hash.getD "")))) := by
  have hnone : objGet ((objGet st (proposeKey r)).getD []) (r.hash.getD "") = none := by
    unfold lookup2 at hmiss
    cases h : objGet st (proposeKey r) with
    | none => simp [objGet]
    | some inner => simpa [h] using hmiss
  simp [handlePropose, hv, objGet_ensureKey_self, hnone]

theorem lookup2_handlePropose_self (st : Store) (r : ProposeRequest)
    (hv : proposeInvalid r = false)
    (hmiss : lookup2 st (proposeKey r) (r.hash.getD "") = none) :
    lookup2 (handlePropose st r).2 (proposeKey r) (r.hash.getD "") =
      some (mkProposal r (r.hash.getD "")) := by
  rw [handlePropose_created st r hv hmiss]
  simp [lookup2, objGet_objSet_self]

theorem lookup2_handlePropose_frame (st : Store) (r : ProposeRequest)
    (k h : String) (hne : ¬(k = proposeKey r ∧ h = r.hash.getD "")) :
    lookup2 (handlePropose st r).2 k h = lookup2 st k h := by
  cases hv : proposeInvalid r with
  | true => rw [handlePropose_invalid st r hv]
  | false =>
    cases hhit : lookup2 st (proposeKey r) (r.hash.getD "") with
    | some ex => rw [handlePropose_conflict st r ex hv hhit]
    | none =>
      rw [handlePropose_created st r hv hhit]
      by_cases hk : k = proposeKey r
      · subst hk
        have hh : h ≠ r.hash.getD "" := fun hh => hne ⟨rfl, hh⟩
        have hh' : ¬ r.hash.getD "" = h := fun hx => hh hx.symm
        cases hst : objGet st (proposeKey r) with
        | none =>
          simp [lookup2, objGet_objSet_self, objGet_objSet_ne _ _ _ _ hh, hst, objGet, hh']
        | some inner =>
          simp [lookup2, objGet_objSet_self, objGet_objSet_ne _ _ _ _ hh, hst]
      · unfold lookup2
        rw [objGet_objSet_ne _ _ _ _ hk, objGet_ensureKey_ne _ _ _ hk]

/-! ### Characterization of the `/sign` handler -/

theorem handleSign_invalid (st : Store) (r : SignRequest)
    (h : signInvalid r = true) :
    handleSign st r = (.badRequest "Missing required fields for signing.", st) := by
  simp [handleSign, h]

theorem handleSign_notFound (st : Store) (r : SignRequest)
    (hv : signInvalid r = false)
    (hmiss : lookup2 st (signKey r) (r.hash.getD "") = none) :
    (∃ e, (handleSign st r).1 = SignResult.notFound e) ∧ (handleSign st r).2 = st := by
  unfold lookup2 at hmiss
  cases hk : objGet st (signKey r) with
  | none =>
    refine ⟨⟨"Multisig contract not found in backend storage.", ?_⟩, ?_⟩ <;>
      simp [handleSign, hv, hk]
  | some inner =>
    have hh : objGet inner (r.hash.getD "") = none := by simpa [hk] using hmiss
    refine ⟨⟨"Proposal with the given hash not found.", ?_⟩, ?_⟩ <;>
      simp [handleSign, hv, hk, hh]

theorem handleSign_conflict (st : Store) (r : SignRequest)
    (p : TransactionProposal) (hv : signInvalid r = false)
    (hhit : lookup2 st (signKey r) (r.hash.getD "") = some p)
    (hdup : ∃ si ∈ p.signatures,
      jsToLowerCase si.signer = jsToLowerCase (r.signer.getD "")) :
    handleSign st r =
      (.conflict "Signer has already signed this proposal." p, st) := by
  obtain ⟨inner, hk, hh⟩ : ∃ inner, objGet st (signKey r) = some inner ∧
      objGet inner (r.hash.getD "") = some p := by
    unfold lookup2 at hhit
    cases h : objGet st (signKey r) with
    | none => simp [h] at hhit
    | some inner => exact ⟨inner, rfl, by simpa [h] using hhit⟩
  obtain ⟨si, hmem, hsame⟩ := hdup
  cases hf : p.signatures.find? (fun si => sameSigner si.signer (r.signer.getD "")) with
  | none =>
    rw [List.find?_eq_none] at hf
    have hns := hf si hmem
    simp [sameSigner] at hns
    exact absurd hsame hns
  | some si' => simp [handleSign, hv, hk, hh, hf]

theorem handleSign_ok_full (st : Store) (r : SignRequest)
    (inner : ProposalMap) (p : TransactionProposal) (hv : signInvalid r = false)
    (hk : objGet st (signKey r) = some inner)
    (hh : objGet inner (r.hash.getD "") = some p)
    (hfind : p.signatures.find?
      (fun si => sameSigner si.signer (r.signer.getD "")) = none) :
    handleSign st r =
      (.ok (pushSignature p (r.signer.getD "") (r.signature.getD "")),
        objSet st (signKey r) (objSet inner (r.hash.getD "")
          (pushSignature p (r.signer.getD "") (r.signature.getD "")))) := by
  simp [handleSign, hv, hk, hh, hfind]

theorem handleSign_ok (st : Store) (r : SignRequest)
    (p : TransactionProposal) (hv : signInvalid r = false)
    (hhit : lookup2 st (signKey r) (r.hash.getD "") = some p)
    (hnew : ∀ si ∈ p.signatures,
      jsToLowerCase si.signer ≠ jsToLowerCase (r.signer.getD "")) :
    (handleSign st r).1 = .ok (pushSignature p (r.signer.getD "") (r.signature.getD "")) ∧
    lookup2 (handleSign st r).2 (signKey r) (r.hash.getD "") =
      some (pushSignature p (r.signer.getD "") (r.signature.getD "")) := by
  obtain ⟨inner, hk, hh⟩ : ∃ inner, objGet st (signKey r) = some inner ∧
      objGet inner (r.hash.getD "") = some p := by
    unfold lookup2 at hhit
    cases h : objGet st (signKey r) with
    | none => simp [h] at hhit
    | some inner => exact ⟨inner, rfl, by simpa [h] using hhit⟩
  have hfind : p.signatures.find?
      (fun si => sameSigner si.signer (r.signer.getD "")) = none := by
    rw [List.find?_eq_none]
    intro si hmem
    simpa [sameSigner] using hnew si hmem
  rw [handleSign_ok_full st r inner p hv hk hh hfind]
  exact ⟨rfl, by simp [lookup2, objGet_objSet_self]⟩

theorem lookup2_handleSign_frame (st : Store) (r : SignRequest)
    (k h : String) (hne : ¬(k = signKey r ∧ h = r.hash.getD "")) :
    lookup2 (handleSign st r).2 k h = lookup2 st k h := by
  cases hv : signInvalid r with
  | true => rw [handleSign_invalid st r hv]
  | false =>
    cases hk : objGet st (signKey r) with
    | none =>
      have hst : handleSign st r =
          (.notFound "Multisig contract not found in backend storage.", st) := by
        simp [handleSign, hv, hk]
      rw [hst]
    | some inner =>
      cases hh : objGet inner (r.hash.getD "") with
      | none =>
        have hst : handleSign st r =
            (.notFound "Proposal with the given hash not found.", st) := by
          simp [handleSign, hv, hk, hh]
        rw [hst]
      | some proposal =>
        cases hf : proposal.signatures.find?
            (fun si => sameSigner si.signer (r.signer.getD "")) with
        | some si =>
          have hst : handleSign st r =
              (.conflict "Signer has already signed this proposal." proposal, st) := by
            simp [handleSign, hv, hk, hh, hf]
          rw [hst]
        | none =>
          rw [handleSign_ok_full st r inner proposal hv hk hh hf]
          by_cases hkk : k = signKey r
          · subst hkk
            have hhh : h ≠ r.hash.getD "" := fun hhh => hne ⟨rfl, hhh⟩
            simp [lookup2, objGet_objSet_self, objGet_objSet_ne _ _ _ _ hhh, hk]
          · simp [lookup2, objGet_objSet_ne _ _ _ _ hkk]

/-! ### The one-approval-per-identity invariant over reachable states -/

theorem storeInv_nil : storeInv [] := by
  intro k h p hl
  simp [lookup2, objGet] at hl

theorem storeInv_handlePropose (st : Store) (r : ProposeRequest)
    (hinv : storeInv st) : storeInv (handlePropose st r).2 := by
  intro k h p hl
  by_cases hkh : k = proposeKey r ∧ h = r.hash.getD ""
  · obtain ⟨hk, hh⟩ := hkh
    subst hk; subst hh
    cases hv : proposeInvalid r with
    | true =>
      rw [handlePropose_invalid st r hv] at hl
      exact hinv _ _ _ hl
    | false =>
      cases hhit : lookup2 st (proposeKey r) (r.hash.getD "") with
      | some ex =>
        rw [handlePropose_conflict st r ex hv hhit] at hl
        exact hinv _ _ _ hl
      | none =>
        rw [lookup2_handlePropose_self st r hv hhit] at hl
        obtain rfl : mkProposal r (r.hash.getD "") = p := by
          simpa using hl
        simp [mkProposal, identOk]
  · rw [lookup2_handlePropose_frame st r k h hkh] at hl
    exact hinv _ _ _ hl

theorem storeInv_handleSign (st : Store) (r : SignRequest)
    (hinv : storeInv st) : storeInv (handleSign st r).2 := by
  intro k h p hl
  by_cases hkh : k = signKey r ∧ h = r.hash.getD ""
  · obtain ⟨hk, hh⟩ := hkh
    subst hk; subst hh
    cases hv : signInvalid r with
    | true =>
      rw [handleSign_invalid st r hv] at hl
      exact hinv _ _ _ hl
    | false =>
      cases hk0 : objGet st (signKey r) with
      | none =>
        have hst : (handleSign st r).2 = st := by simp [handleSign, hv, hk0]
        rw [hst] at hl
        exact hinv _ _ _ hl
      | some inner =>
        cases hh0 : objGet inner (r.hash.getD "") with
        | none =>
          have hst : (handleSign st r).2 = st := by simp [handleSign, hv, hk0, hh0]
          rw [hst] at hl
          exact hinv _ _ _ hl
        | some proposal =>
          cases hf : proposal.signatures.find?
              (fun si => sameSigner si.signer (r.signer.getD "")) with
          | some si =>
            have hst : (handleSign st r).2 = st := by
              simp [handleSign, hv, hk0, hh0, hf]
            rw [hst] at hl
            exact hinv _ _ _ hl
          | none =>
            rw [handleSign_ok_full st r inner proposal hv hk0 hh0 hf] at hl
            simp only [lookup2, objGet_objSet_self, Option.some_bind] at hl
            obtain rfl : pushSignature proposal (r.signer.getD "") (r.signature.getD "") = p := by
              simpa using hl
            have hprev : identOk proposal.signatures :=
              hinv (signKey r) (r.hash.getD "") proposal (by simp [lookup2, hk0, hh0])
            rw [List.find?_eq_none] at hf
            unfold identOk pushSignature
            rw [List.pairwise_append]
            refine ⟨hprev, by simp, ?_⟩
            intro a ha b hb
            obtain rfl : b = (⟨r.signer.getD "", r.signature.getD ""⟩ : SignatureInfo) := by
              simpa using hb
            have hns := hf a ha
            simp [sameSigner] at hns
            exact hns
  · rw [lookup2_handleSign_frame st r k h hkh] at hl
    exact hinv _ _ _ hl

theorem storeInv_step (st : Store) (ev : Event) (hinv : storeInv st) :
    storeInv (step st ev) := by
  cases ev with
  | propose r => exact storeInv_handlePropose st r hinv
  | sign r => exact storeInv_handleSign st r hinv

theorem storeInv_foldl (evs : List Event) (st : Store) (hinv : storeInv st) :
    storeInv (evs.foldl step st) := by
  induction evs generalizing st with
  | nil => exact hinv
  | cons ev rest ih => exact ih (step st ev) (storeInv_step st ev hinv)

theorem storeInv_run (evs : List Event) : storeInv (run evs) :=
  storeInv_foldl evs [] storeInv_nil

/-- Every stored proposal survives any single request, and its signature
list only ever grows at the end (existing approvals are never overwritten,
replaced, or dropped). -/
theorem step_extends (st : Store) (ev : Event) (k h : String)
    (p : TransactionProposal) (hl : lookup2 st k h = some p) :
    ∃ p', lookup2 (step st ev) k h = some p' ∧ p.signatures <+: p'.signatures := by
  cases ev with
  | propose r =>
    by_cases hkh : k = proposeKey r ∧ h = r.hash.getD ""
    · obtain ⟨hk, hh⟩ := hkh
      subst hk; subst hh
      cases hv : proposeInvalid r with
      | true =>
        refine ⟨p, ?_, List.prefix_refl _⟩
        rw [show step st (.propose r) = (handlePropose st r).2 from rfl,
          handlePropose_invalid st r hv]
        exact hl
      | false =>
        refine ⟨p, ?_, List.prefix_refl _⟩
        rw [show step st (.propose r) = (handlePropose st r).2 from rfl,
          handlePropose_conflict st r p hv hl]
        exact hl
    · exact ⟨p, by rw [show step st (.propose r) = (handlePropose st r).2 from rfl,
        lookup2_handlePropose_frame st r k h hkh]; exact hl, List.prefix_refl _⟩
  | sign r =>
    by_cases hkh : k = signKey r ∧ h = r.hash.getD ""
    · obtain ⟨hk, hh⟩ := hkh
      subst hk; subst hh
      cases hv : signInvalid r with
      | true =>
        refine ⟨p, ?_, List.prefix_refl _⟩
        rw [show step st (.sign r) = (handleSign st r).2 from rfl,
          handleSign_invalid st r hv]
        exact hl
      | false =>
        obtain ⟨inner, hk0, hh0⟩ : ∃ inner, objGet st (signKey r) = some inner ∧
            objGet inner (r.hash.getD "") = some p := by
          unfold lookup2 at hl
          cases hx : objGet st (signKey r) with
          | none => simp [hx] at hl
          | some inner => exact ⟨inner, rfl, by simpa [hx] using hl⟩
        cases hf : p.signatures.find?
            (fun si => sameSigner si.signer (r.signer.getD "")) with
        | some si =>
          refine ⟨p, ?_, List.prefix_refl _⟩
          rw [show step st (.sign r) = (handleSign st r).2 from rfl]
          have hst : handleSign st r =
              (.conflict "Signer has already signed this proposal." p, st) := by
            simp [handleSign, hv, hk0, hh0, hf]
          rw [hst]
          exact hl
        | none =>
          refine ⟨pushSignature p (r.signer.getD "") (r.signature.getD ""), ?_, ?_⟩
          · rw [show step st (.sign r) = (handleSign st r).2 from rfl,
              handleSign_ok_full st r inner p hv hk0 hh0 hf]
            simp [lookup2, objGet_objSet_self]
          · exact ⟨[⟨r.signer.getD "", r.signature.getD ""⟩], rfl⟩
    · exact ⟨p, by rw [show step st (.sign r) = (handleSign st r).2 from rfl,
        lookup2_handleSign_frame st r k h hkh]; exact hl, List.prefix_refl _⟩

/-! ### The client's candidate-list assembly -/

theorem dedupLoop_sublist (used : List String) (l : List SigPair) :
    (dedupLoop used l).Sublist l := by
  induction l generalizing used with
  | nil => simp [dedupLoop]
  | cons p rest ih =>
    unfold dedupLoop
    by_cases hp : p.signature ∈ used
    · rw [if_pos hp]
      exact (ih used).cons p
    · rw [if_neg hp]
      exact (ih _).cons₂ p

theorem mem_dedupLoop (used : List String) (l : List SigPair) (s : String) :
    s ∈ (dedupLoop used l).map SigPair.signature ↔
      s ∈ l.map SigPair.signature ∧ s ∉ used := by
  induction l generalizing used with
  | nil => simp [dedupLoop]
  | cons p rest ih =>
    unfold dedupLoop
    by_cases hp : p.signature ∈ used
    · rw [if_pos hp, ih]
      constructor
      · rintro ⟨hs, hu⟩
        exact ⟨by simp [hs], hu⟩
      · rintro ⟨hs, hu⟩
        rcases (by simpa using hs : s = p.signature ∨ s ∈ rest.map SigPair.signature) with
          rfl | hs'
        · exact absurd hp hu
        · exact ⟨hs', hu⟩
    · rw [if_neg hp]
      simp only [List.map_cons, List.mem_cons, ih]
      constructor
      · rintro (rfl | ⟨hs, hu⟩)
        · exact ⟨Or.inl rfl, hp⟩
        · exact ⟨Or.inr hs, fun hm => hu (Or.inr hm)⟩
      · rintro ⟨hs | hs, hu⟩
        · exact Or.inl hs
        · by_cases hsp : s = p.signature
          · exact Or.inl hsp
          · exact Or.inr ⟨hs, by simp [hsp, hu]⟩

theorem nodup_dedupLoop (used : List String) (l : List SigPair) :
    ((dedupLoop used l).map SigPair.signature).Nodup := by
  induction l generalizing used with
  | nil => simp [dedupLoop]
  | cons p rest ih =>
    unfold dedupLoop
    by_cases hp : p.signature ∈ used
    · rw [if_pos hp]
      exact ih used
    · rw [if_neg hp]
      simp only [List.map_cons, List.nodup_cons]
      refine ⟨fun hm => ?_, ih _⟩
      exact ((mem_dedupLoop _ _ _).mp hm).2 (List.mem_cons_self _ _)

/-- Every pair surviving to the deduplicated list came from the input, so
its `signer` field is the `recover` image of its `signature` field. -/
theorem dedup_signer_eq_recover (recover : String → Nat) (allSigs : List SignatureInfo) :
    ∀ q ∈ dedupLoop [] (List.insertionSort sigLe
      (allSigs.map fun si => SigPair.mk si.signature (recover si.signature))),
      q.signer = recover q.signature := by
  intro q hq
  have h1 := (dedupLoop_sublist [] _).subset hq
  have h2 := (List.perm_insertionSort sigLe
    (allSigs.map fun si => SigPair.mk si.signature (recover si.signature))).subset h1
  obtain ⟨si, _, rfl⟩ := List.mem_map.mp h2
  rfl

theorem dedup_pairwise_le (recover : String → Nat) (allSigs : List SignatureInfo) :
    (dedupLoop [] (List.insertionSort sigLe
      (allSigs.map fun si => SigPair.mk si.signature (recover si.signature)))).Pairwise sigLe :=
  List.Pairwise.sublist (dedupLoop_sublist [] _)
    (List.sorted_insertionSort sigLe _)

/-! ### Claim theorems -/

/-- **C1, counterexample.** The claim says `getSortedSigList` deduplicates
over recovered identities, never over raw signature bytes, so that its
output's recovered identities are strictly ascending with no repeats.  At a
concrete input whose two byte-distinct signatures both recover to identity
`5`, the assembled list keeps both signatures and its recovered identities
are `[5, 5]` — not strictly ascending, and both byte-distinct signatures
recovering to the same identity are included. -/
theorem claim_C1_counterexample :
    getSortedSigList (fun _ => 5) [⟨"0xA", "s1"⟩, ⟨"0xB", "s2"⟩] = ["s1", "s2"] ∧
    recoveredIdentities (fun _ => 5)
      (getSortedSigList (fun _ => 5) [⟨"0xA", "s1"⟩, ⟨"0xB", "s2"⟩]) = [5, 5] ∧
    ¬ List.Pairwise (fun a b : Nat => a < b)
      (recoveredIdentities (fun _ => 5)
        (getSortedSigList (fun _ => 5) [⟨"0xA", "s1"⟩, ⟨"0xB", "s2"⟩])) := by
  exact ⟨by decide, by decide, by decide⟩

/-- **C1, amended.** For every list of collected approvals and every
recovery function, the candidate list assembled by `getSortedSigList` has
its recovered identities in nondecreasing (not necessarily strict) order;
deduplication is performed over raw signature byte-strings — the output's
signatures are pairwise distinct, and a signature string appears in the
output iff it appears among the input approvals, so two byte-distinct
signatures recovering to the same identity are both kept. -/
theorem claim_C1_amended (recover : String → Nat) (allSigs : List SignatureInfo) :
    List.Pairwise (fun a b : Nat => a ≤ b)
      (recoveredIdentities recover (getSortedSigList recover allSigs)) ∧
    (getSortedSigList recover allSigs).Nodup ∧
    (∀ s, s ∈ getSortedSigList recover allSigs ↔
      s ∈ allSigs.map SignatureInfo.signature) := by
  refine ⟨?_, nodup_dedupLoop _ _, ?_⟩
  · unfold recoveredIdentities getSortedSigList
    rw [List.map_map]
    have hcong : (dedupLoop [] (List.insertionSort sigLe
        (allSigs.map fun si => SigPair.mk si.signature (recover si.signature)))).map
          (recover ∘ SigPair.signature) =
        (dedupLoop [] (List.insertionSort sigLe
        (allSigs.map fun si => SigPair.mk si.signature (recover si.signature)))).map
          SigPair.signer := by
      apply List.map_congr_left
      intro q hq
      exact (dedup_signer_eq_recover recover allSigs q hq).symm
    rw [hcong]
    exact List.Pairwise.map _ (fun a b hab => hab) (dedup_pairwise_le recover allSigs)
  · intro s
    unfold getSortedSigList
    rw [mem_dedupLoop]
    constructor
    · rintro ⟨hs, -⟩
      have hperm := (List.perm_insertionSort sigLe
        (allSigs.map fun si => SigPair.mk si.signature (recover si.signature))).map
          SigPair.signature
      rw [hperm.mem_iff, List.map_map] at hs
      simpa using hs
    · intro hs
      refine ⟨?_, by simp⟩
      have hperm := (List.perm_insertionSort sigLe
        (allSigs.map fun si => SigPair.mk si.signature (recover si.signature))).map
          SigPair.signature
      rw [hperm.mem_iff, List.map_map]
      simpa using hs

/-- **C7.** The claim (and the spec's staleness model) says the pool view
marks a transaction "outdated" exactly when at least one ExecuteTransaction
event exists and the transaction's embedded nonce is at most the maximum
executed nonce.  The code computes each event's contribution with
`event.args.nonce ? BigInt(event.args.nonce) : -1n`, so a bigint nonce `0`
(the wallet's very first execution) is falsy and contributes `-1`: with
executed-event history `[nonce 0]` and a pending transaction of nonce `0`,
`lastExecutedNonce` is `-1` and the flag stays `false`, while the claim's
criterion holds. -/
theorem claim_C7_code_bug :
    lastExecutedNonce [some 0] = -1 ∧
    outdatedFlag [some 0] 0 = false ∧
    claimOutdated [0] 0 := by
  refine ⟨by decide, by decide, by decide, 0, by decide, ?_, by decide⟩
  intro x hx
  simp at hx
  simp [hx]

/-- A well-formed propose request used to instantiate the claim theorems. -/
def sampleProposeReq : ProposeRequest :=
  { address := some "0xc", chainId := some "31337", hash := some "0xh",
    «to» := some "0xt", value := some "1000", data := some "0x",
    nonce := some 0, proposer := some "0xp" }

/-- A stored proposal carrying one approval from claimed signer `0xAB`. -/
def sampleProposal : TransactionProposal :=
  { hash := "0xh", «to» := "0xt", value := "1000", data := "0x", nonce := 0,
    proposer := none, signatures := [⟨"0xAB", "sigbytes1"⟩] }

/-- A store holding `sampleProposal` under key `0xc_31337` and hash `0xh`. -/
def sampleStore : Store := [("0xc_31337", [("0xh", sampleProposal)])]

/-- A sign request whose claimed signer `0xab` equals `0xAB` up to case. -/
def sampleSignReq : SignRequest :=
  { address := some "0xc", chainId := some "31337", hash := some "0xh",
    signer := some "0xab", signature := some "sigbytes2" }

/-- A sign request from a fresh claimed signer `0xCD`. -/
def sampleSignReq2 : SignRequest :=
  { address := some "0xc", chainId := some "31337", hash := some "0xh",
    signer := some "0xCD", signature := some "not a real signature" }

/-- **C2.** For every reachable coordinator state, every stored
`PendingAction` has at most one approval per distinct claimed identity
(case-insensitively); a second approve for an already-present claimed
identity is rejected with a conflict and leaves the state unchanged; and no
request ever overwrites, replaces, or drops an existing approval — stored
signature lists only grow at the end. -/
theorem claim_C2 :
    (∀ evs : List Event, storeInv (run evs)) ∧
    (∀ (st : Store) (r : SignRequest) (p : TransactionProposal),
      signInvalid r = false →
      lookup2 st (signKey r) (r.hash.getD "") = some p →
      (∃ si ∈ p.signatures,
        jsToLowerCase si.signer = jsToLowerCase (r.signer.getD "")) →
      handleSign st r = (.conflict "Signer has already signed this proposal." p, st)) ∧
    (∀ (st : Store) (ev : Event) (k h : String) (p : TransactionProposal),
      lookup2 st k h = some p →
      ∃ p', lookup2 (step st ev) k h = some p' ∧ p.signatures <+: p'.signatures) := by
  refine ⟨storeInv_run, ?_, step_extends⟩
  intro st r p hv hl hdup
  exact handleSign_conflict st r p hv hl hdup

/-- **C2, witness**: the invariant holds after a concrete propose, and a
concrete duplicate-identity approve (claimed `0xab` vs stored `0xAB`) is
rejected with a conflict, state unchanged. -/
theorem claim_C2_witness :
    storeInv (run [Event.propose sampleProposeReq]) ∧
    handleSign sampleStore sampleSignReq =
      (.conflict "Signer has already signed this proposal." sampleProposal,
        sampleStore) :=
  ⟨claim_C2.1 _, claim_C2.2.1 sampleStore sampleSignReq sampleProposal
    (by decide) (by decide)
    ⟨⟨"0xAB", "sigbytes1"⟩, by decide, by decide⟩⟩

/-- **C3.** For a fixed (address, chainId) key and hash: a first propose
for that hash returns a created (201) outcome carrying a fresh
`PendingAction` with an empty approval list and stores it; any subsequent
valid propose addressing the same key and hash leaves the stored entry and
the whole store unchanged and returns that same existing entry (conflict
body carries the stored proposal) — idempotent creation, never two entries,
never an overwrite. -/
theorem claim_C3 (st : Store) (r r' : ProposeRequest)
    (hv : proposeInvalid r = false) (hv' : proposeInvalid r' = false)
    (hkey : proposeKey r' = proposeKey r) (hh : r'.hash.getD "" = r.hash.getD "")
    (hmiss : lookup2 st (proposeKey r) (r.hash.getD "") = none) :
    (handlePropose st r).1 = .created (mkProposal r (r.hash.getD "")) ∧
    proposeStatus (handlePropose st r).1 = 201 ∧
    (mkProposal r (r.hash.getD "")).signatures = [] ∧
    lookup2 (handlePropose st r).2 (proposeKey r) (r.hash.getD "") =
      some (mkProposal r (r.hash.getD "")) ∧
    handlePropose (handlePropose st r).2 r' =
      (.conflict "Proposal with this hash already exists."
        (mkProposal r (r.hash.getD "")), (handlePropose st r).2) := by
  have h1 := handlePropose_created st r hv hmiss
  have h2 := lookup2_handlePropose_self st r hv hmiss
  refine ⟨by rw [h1], by rw [h1]; rfl, rfl, h2, ?_⟩
  have h3 : lookup2 (handlePropose st r).2 (proposeKey r') (r'.hash.getD "") =
      some (mkProposal r (r.hash.getD "")) := by
    rw [hkey, hh]
    exact h2
  exact handlePropose_conflict _ r' _ hv' h3

/-- **C3, witness**: proposing `sampleProposeReq` on an empty store creates
the entry, and re-proposing it returns the stored entry with the store
unchanged. -/
theorem claim_C3_witness :
    (handlePropose [] sampleProposeReq).1 =
      .created (mkProposal sampleProposeReq (sampleProposeReq.hash.getD "")) ∧
    proposeStatus (handlePropose [] sampleProposeReq).1 = 201 ∧
    (mkProposal sampleProposeReq (sampleProposeReq.hash.getD "")).signatures = [] ∧
    lookup2 (handlePropose [] sampleProposeReq).2 (proposeKey sampleProposeReq)
      (sampleProposeReq.hash.getD "") =
      some (mkProposal sampleProposeReq (sampleProposeReq.hash.getD "")) ∧
    handlePropose (handlePropose [] sampleProposeReq).2 sampleProposeReq =
      (.conflict "Proposal with this hash already exists."
        (mkProposal sampleProposeReq (sampleProposeReq.hash.getD "")),
        (handlePropose [] sampleProposeReq).2) :=
  claim_C3 [] sampleProposeReq sampleProposeReq (by decide) (by decide) rfl rfl
    (by decide)

/-- **C4.** For every valid approve request: if no `PendingAction` is
stored under its key and hash, the handler answers a not-found (404)
outcome and leaves the state unchanged; if the claimed identity already has
an entry (case-insensitive), it answers a conflict (409) with the stored
proposal and leaves the state unchanged; otherwise it appends the new
approval at the end of the approval list, stores the result, and returns
the updated proposal with a 200 outcome. -/
theorem claim_C4 (st : Store) (r : SignRequest) (hv : signInvalid r = false) :
    (lookup2 st (signKey r) (r.hash.getD "") = none →
      (∃ e, (handleSign st r).1 = SignResult.notFound e) ∧
      signStatus (handleSign st r).1 = 404 ∧ (handleSign st r).2 = st) ∧
    (∀ p, lookup2 st (signKey r) (r.hash.getD "") = some p →
      ((∃ si ∈ p.signatures,
          jsToLowerCase si.signer = jsToLowerCase (r.signer.getD "")) →
        handleSign st r =
          (.conflict "Signer has already signed this proposal." p, st)) ∧
      ((∀ si ∈ p.signatures,
          jsToLowerCase si.signer ≠ jsToLowerCase (r.signer.getD "")) →
        (handleSign st r).1 =
          .ok (pushSignature p (r.signer.getD "") (r.signature.getD "")) ∧
        lookup2 (handleSign st r).2 (signKey r) (r.hash.getD "") =
          some (pushSignature p (r.signer.getD "") (r.signature.getD "")))) := by
  constructor
  · intro hmiss
    obtain ⟨he, hst⟩ := handleSign_notFound st r hv hmiss
    refine ⟨he, ?_, hst⟩
    obtain ⟨e, he'⟩ := he
    rw [he']
    rfl
  · intro p hhit
    exact ⟨fun hdup => handleSign_conflict st r p hv hhit hdup,
      fun hnew => handleSign_ok st r p hv hhit hnew⟩

/-- **C4, witness**: on the empty store the concrete approve is
not-found with the state unchanged; on `sampleStore` the duplicate-identity
approve conflicts with the state unchanged. -/
theorem claim_C4_witness :
    ((∃ e, (handleSign [] sampleSignReq).1 = SignResult.notFound e) ∧
      signStatus (handleSign [] sampleSignReq).1 = 404 ∧
      (handleSign [] sampleSignReq).2 = []) ∧
    handleSign sampleStore sampleSignReq =
      (.conflict "Signer has already signed this proposal." sampleProposal,
        sampleStore) :=
  ⟨(claim_C4 [] sampleSignReq (by decide)).1 (by decide),
    ((claim_C4 sampleStore sampleSignReq (by decide)).2 sampleProposal
      (by decide)).1 ⟨⟨"0xAB", "sigbytes1"⟩, by decide, by decide⟩⟩

/-- **C5.** Every propose request failing the required-field validation
(`address`, `chainId`, `hash`, `to` falsy, or `value`/`data`/`nonce`
absent) and every sign request failing its validation (`address`,
`chainId`, `hash`, `signer`, `signature` falsy) is rejected with a
bad-request (400) outcome carrying an error message, and the stored state
is returned completely unchanged. -/
theorem claim_C5 (st : Store) (rp : ProposeRequest) (rs : SignRequest)
    (hp : proposeInvalid rp = true) (hs : signInvalid rs = true) :
    handlePropose st rp = (.badRequest "Missing required fields for proposal.", st) ∧
    proposeStatus (handlePropose st rp).1 = 400 ∧
    handleSign st rs = (.badRequest "Missing required fields for signing.", st) ∧
    signStatus (handleSign st rs).1 = 400 := by
  refine ⟨handlePropose_invalid st rp hp, ?_, handleSign_invalid st rs hs, ?_⟩
  · rw [handlePropose_invalid st rp hp]
    rfl
  · rw [handleSign_invalid st rs hs]
    rfl

/-- **C5, witness**: a propose missing `to` and a sign missing `signature`
are both rejected 400 with `sampleStore` unchanged. -/
theorem claim_C5_witness :
    handlePropose sampleStore
        { sampleProposeReq with «to» := none } =
      (.badRequest "Missing required fields for proposal.", sampleStore) ∧
    proposeStatus (handlePropose sampleStore
        { sampleProposeReq with «to» := none }).1 = 400 ∧
    handleSign sampleStore { sampleSignReq with signature := none } =
      (.badRequest "Missing required fields for signing.", sampleStore) ∧
    signStatus (handleSign sampleStore
        { sampleSignReq with signature := none }).1 = 400 :=
  claim_C5 sampleStore { sampleProposeReq with «to» := none }
    { sampleSignReq with signature := none } (by decide) (by decide)

/-- **C6.** The coordinator's entire mutable state is the single store
`multisigData` (modelled as the whole `Store` value — there is no
membership set or sequence counter in it to mutate, and the handlers call
nothing external); every propose or sign mutates at most the one entry
addressed by its (key, hash) pair — every other key and hash reads back
unchanged — and the list endpoint performs no write at all. -/
theorem claim_C6 (st : Store) (rp : ProposeRequest) (rs : SignRequest)
    (a c k h : String)
    (hp : ¬(k = proposeKey rp ∧ h = rp.hash.getD ""))
    (hs : ¬(k = signKey rs ∧ h = rs.hash.getD "")) :
    lookup2 (handlePropose st rp).2 k h = lookup2 st k h ∧
    lookup2 (handleSign st rs).2 k h = lookup2 st k h ∧
    (handleList st a c).2 = st :=
  ⟨lookup2_handlePropose_frame st rp k h hp,
    lookup2_handleSign_frame st rs k h hs, rfl⟩

/-- **C6, witness**: a concrete propose and sign leave an unrelated
(key, hash) slot of `sampleStore` unchanged, and list writes nothing. -/
theorem claim_C6_witness :
    lookup2 (handlePropose sampleStore sampleProposeReq).2 "other_1" "0xz" =
      lookup2 sampleStore "other_1" "0xz" ∧
    lookup2 (handleSign sampleStore sampleSignReq2).2 "other_1" "0xz" =
      lookup2 sampleStore "other_1" "0xz" ∧
    (handleList sampleStore "0xc" "31337").2 = sampleStore :=
  claim_C6 sampleStore sampleProposeReq sampleSignReq2 "0xc" "31337"
    "other_1" "0xz" (by decide) (by decide)

/-- **C8.** The sign endpoint performs no cryptographic validation: for any
request whose claimed signer is not already present on the stored proposal,
the raw claimed signer and signature strings — arbitrary strings, with no
constraint relating the signature to the signer or to any message — are
appended and stored verbatim.  No recovery or validity check appears
anywhere in the coordinator model. -/
theorem claim_C8 (st : Store) (r : SignRequest) (p : TransactionProposal)
    (hv : signInvalid r = false)
    (hhit : lookup2 st (signKey r) (r.hash.getD "") = some p)
    (hnew : ∀ si ∈ p.signatures,
      jsToLowerCase si.signer ≠ jsToLowerCase (r.signer.getD "")) :
    (handleSign st r).1 = .ok { p with signatures :=
      p.signatures ++ [⟨r.signer.getD "", r.signature.getD ""⟩] } ∧
    lookup2 (handleSign st r).2 (signKey r) (r.hash.getD "") =
      some { p with signatures :=
        p.signatures ++ [⟨r.signer.getD "", r.signature.getD ""⟩] } :=
  handleSign_ok st r p hv hhit hnew

/-- **C8, witness**: the nonsense string `"not a real signature"` from
fresh claimed signer `0xCD` is accepted and stored verbatim. -/
theorem claim_C8_witness :
    (handleSign sampleStore sampleSignReq2).1 = .ok { sampleProposal with
      signatures := sampleProposal.signatures ++ [⟨"0xCD", "not a real signature"⟩] } ∧
    lookup2 (handleSign sampleStore sampleSignReq2).2 (signKey sampleSignReq2)
      (sampleSignReq2.hash.getD "") =
      some { sampleProposal with signatures :=
        sampleProposal.signatures ++ [⟨"0xCD", "not a real signature"⟩] } :=
  claim_C8 sampleStore sampleSignReq2 sampleProposal (by decide) (by decide)
    (by decide)

/-- **C9.** The proposal-list endpoint always answers 200 — its handler
has no error branch for any store and any key — and a (address, chainId)
key the coordinator has never seen yields the empty collection rather than
a failure. -/
theorem claim_C9 (st : Store) (address chainId : String) :
    (handleList st address chainId).1.1 = 200 ∧
    (objGet st (address ++ "_" ++ chainId) = none →
      (handleList st address chainId).1.2 = []) := by
  refine ⟨rfl, fun h => ?_⟩
  simp [handleList, h]

/-- **C9, witness**: listing a never-seen key of `sampleStore` answers 200
with the empty collection. -/
theorem claim_C9_witness :
    (handleList sampleStore "0xnew" "1").1.1 = 200 ∧
    (handleList sampleStore "0xnew" "1").1.2 = [] :=
  ⟨(claim_C9 sampleStore "0xnew" "1").1,
    (claim_C9 sampleStore "0xnew" "1").2 (by decide)⟩

/-- **C10.** The proposer field is optional at the propose boundary: a
valid first propose with no `proposer` is accepted with a created (201)
outcome, and the stored `PendingAction` carries an absent proposer. -/
theorem claim_C10 (st : Store) (r : ProposeRequest)
    (hv : proposeInvalid r = false) (hprop : r.proposer = none)
    (hmiss : lookup2 st (proposeKey r) (r.hash.getD "") = none) :
    (handlePropose st r).1 = .created (mkProposal r (r.hash.getD "")) ∧
    proposeStatus (handlePropose st r).1 = 201 ∧
    (mkProposal r (r.hash.getD "")).proposer = none ∧
    lookup2 (handlePropose st r).2 (proposeKey r) (r.hash.getD "") =
      some (mkProposal r (r.hash.getD "")) := by
  have h1 := handlePropose_created st r hv hmiss
  exact ⟨by rw [h1], by rw [h1]; rfl, by simp [mkProposal, hprop],
    lookup2_handlePropose_self st r hv hmiss⟩

/-- **C10, witness**: the proposer-less variant of `sampleProposeReq` is
created on the empty store and stored with `proposer := none`. -/
theorem claim_C10_witness :
    (handlePropose [] { sampleProposeReq with proposer := none }).1 =
      .created (mkProposal { sampleProposeReq with proposer := none }
        ({ sampleProposeReq with proposer := none }.hash.getD "")) ∧
    (mkProposal { sampleProposeReq with proposer := none }
      ({ sampleProposeReq with proposer := none }.hash.getD "")).proposer = none :=
  ⟨(claim_C10 [] { sampleProposeReq with proposer := none } (by decide) rfl
      (by decide)).1,
    (claim_C10 [] { sampleProposeReq with proposer := none } (by decide) rfl
      (by decide)).2.2.1⟩

end MultiSig
